import Mathlib

/-!
Shallow embedding of the wiki_escalation scraping pipeline
(src/scrape_drn.py and src/fetch_talkpages.py).

Modelling conventions, stated once:
* A fetched HTML document is represented by the list of href attribute
  values of its anchor tags — the only part of a document either script
  inspects (via BeautifulSoup find_all with href).
* Network nondeterminism is an explicit oracle: a function from the
  attempt index to that attempt's outcome.  `time.sleep` calls are
  recorded as a list of slept durations; wall-clock timestamps
  (`fetched_at`) are outside the model.
* Python dicts used as caches are association lists consulted
  first-match; new bindings are only ever added for keys not present,
  so first-match lookup coincides with dict lookup.
* `urllib.parse.unquote` is modelled as character-level percent
  decoding; reassembly of consecutive escapes into multi-byte UTF-8
  code points is not modelled (no proved property depends on the
  identity of a decoded character, only on decoding being a function
  that maps nonempty strings to nonempty strings).
-/

namespace WikiEscalation

/-- Hexadecimal digit test, as accepted by urllib percent escapes. -/
def isHexDigit (c : Char) : Bool :=
  c.isDigit || (('a' ≤ c) && (c ≤ 'f')) || (('A' ≤ c) && (c ≤ 'F'))

/-- Numeric value of a hexadecimal digit. -/
def hexVal (c : Char) : Nat :=
  if c.isDigit then c.toNat - 48
  else if ('a' ≤ c) && (c ≤ 'f') then c.toNat - 87
  else c.toNat - 55

/-- Character-level model of urllib.parse.unquote: a percent sign
followed by two hexadecimal digits decodes to the character with that
code; anything else passes through unchanged. -/
def unquoteChars : List Char → List Char
  | [] => []
  | [c] => [c]
  | [c, d] => c :: unquoteChars [d]
  | c :: a :: b :: rest =>
    if c = '%' then
      if isHexDigit a && isHexDigit b then
        Char.ofNat (hexVal a * 16 + hexVal b) :: unquoteChars rest
      else
        c :: unquoteChars (a :: b :: rest)
    else
      c :: unquoteChars (a :: b :: rest)

/-- Model of urllib.parse.unquote on strings. -/
def unquote (s : String) : String := String.mk (unquoteChars s.data)

/-- Fuel-driven worker for stripAll; the fuel is an upper bound on the
length of the remaining input, so the exhausted-fuel branch is never
reached from stripAll. -/
def stripAllGo (pat : List Char) : Nat → List Char → List Char
  | _, [] => []
  | 0, l => l
  | fuel + 1, c :: rest =>
    match pat with
    | [] => c :: rest
    | p :: ps =>
      if (p :: ps).isPrefixOf (c :: rest) then
        stripAllGo (p :: ps) fuel (rest.drop ps.length)
      else
        c :: stripAllGo (p :: ps) fuel rest

/-- Model of Python str.replace(pat, "") on character lists: delete
every occurrence of pat, scanning left to right.  (The degenerate
empty pattern returns the input unchanged; every pattern used by the
scripts is a nonempty literal.) -/
def stripAll (pat : List Char) (s : List Char) : List Char :=
  stripAllGo pat s.length s

/-- Lexicographic strict comparison of character lists by code point:
exactly the order Python's sorted() applies to strings. -/
def charListLt : List Char → List Char → Bool
  | [], [] => false
  | [], _ :: _ => true
  | _ :: _, [] => false
  | a :: as, b :: bs =>
    if a < b then true
    else if b < a then false
    else charListLt as bs

/-- Strict lexicographic comparison of strings by code point. -/
def strLt (a b : String) : Bool := charListLt a.data b.data

/-- Insert a string into a sorted duplicate-free list, keeping it
sorted and duplicate-free.  Folding this over a list models building a
Python set and reading it back with sorted(). -/
def insertSortedNoDup (x : String) : List String → List String
  | [] => [x]
  | y :: ys =>
    if strLt x y then x :: y :: ys
    else if x = y then y :: ys
    else y :: insertSortedNoDup x ys

/-- Model of sorted(set(l)) for a list of strings: the sorted,
duplicate-free list of its elements. -/
def sortedSet (l : List String) : List String :=
  l.foldl (fun acc x => insertSortedNoDup x acc) []

/-! MediaWiki API response model, shared by both scripts (their
response handling code is textually identical). -/

/-- One revision object from the API response: the content of its main
slot and the revision timestamp (absent key modelled as none). -/
structure Rev where
  content : String
  timestamp : Option String
deriving DecidableEq

/-- One page object from the API response: whether the key missing is
present, and its revisions array (an absent revisions key and an empty
array behave identically in the code and are both modelled as []). -/
structure ApiPage where
  missing : Bool
  revisions : List Rev
deriving DecidableEq

/-- The pages array of a parsed API response. -/
structure ApiResp where
  pages : List ApiPage
deriving DecidableEq

/-- Resolved page data: wikitext and revision timestamp, as cached by
fetch_talkpages.py and written into records by both scripts. -/
structure PageData where
  wikitext : String
  timestamp : Option String
deriving DecidableEq

/-- The response-handling tail shared by both fetch_wikitext_via_api
functions: empty pages array, a page marked missing, or a page with no
revisions all yield None; otherwise the first revision's content and
timestamp. -/
def processResponse (resp : ApiResp) : Option PageData :=
  match resp.pages with
  | [] => none
  | page :: _ =>
    if page.missing then none
    else
      match page.revisions with
      | [] => none
      | rev :: _ => some ⟨rev.content, rev.timestamp⟩

/-- Outcome of one HTTP attempt inside fetch_wikitext_via_api of
fetch_talkpages.py: err is any exception (transport error, timeout,
non-2xx status, JSON parse failure), ok is a parsed response. -/
inductive Attempt where
  | err : Attempt
  | ok : ApiResp → Attempt
deriving DecidableEq

/-- Trace of one call to a retrying fetch function: the returned
value, how many HTTP requests were issued, and the durations passed to
time.sleep in the retry loop, in order. -/
structure FetchTrace (α : Type) where
  result : Option α
  calls : Nat
  sleeps : List Nat
deriving DecidableEq

/-- Retry loop of fetch_wikitext_via_api in fetch_talkpages.py,
starting at 0-based attempt index i with the given remaining fuel.  A
successful attempt returns processResponse immediately; a failed
attempt sleeps 2 * (i + 1) and continues.  Falling out of the loop
returns None. -/
def fwtaGo (attempt : Nat → Attempt) (i : Nat) : Nat → FetchTrace PageData
  | 0 => ⟨none, 0, []⟩
  | fuel + 1 =>
    match attempt i with
    | Attempt.ok resp => ⟨processResponse resp, 1, []⟩
    | Attempt.err =>
      let t := fwtaGo attempt (i + 1) fuel
      ⟨t.result, t.calls + 1, 2 * (i + 1) :: t.sleeps⟩

/-- fetch_wikitext_via_api of fetch_talkpages.py (default retries=3):
returns the fetched page data, or None both when the provider reports
the page missing/without revisions and when every attempt failed. -/
def fetch_wikitext_via_api (attempt : Nat → Attempt) (retries : Nat) : FetchTrace PageData :=
  fwtaGo attempt 0 retries

/-- Retry loop of get_html in scrape_drn.py: each attempt either
yields the document (modelled as its href list) or raises, in which
case the code sleeps 2 * (i + 1) and retries; exhausting all attempts
raises RuntimeError, modelled as result None. -/
def getHtmlGo (attempt : Nat → Option (List String)) (i : Nat) : Nat → FetchTrace (List String)
  | 0 => ⟨none, 0, []⟩
  | fuel + 1 =>
    match attempt i with
    | some doc => ⟨some doc, 1, []⟩
    | none =>
      let t := getHtmlGo attempt (i + 1) fuel
      ⟨t.result, t.calls + 1, 2 * (i + 1) :: t.sleeps⟩

/-- get_html of scrape_drn.py (default retries=3). -/
def get_html (attempt : Nat → Option (List String)) (retries : Nat) : FetchTrace (List String) :=
  getHtmlGo attempt 0 retries

/-! Model of fetch_talkpages.py. -/

/-- Character list of the prefix stripped by split_title_and_anchor. -/
def wikiPathChars : List Char := "https://en.wikipedia.org/wiki/".data

/-- Fragment split inside split_title_and_anchor of
fetch_talkpages.py: split the stripped path at the first hash mark
into page and anchor and percent-decode both; no hash mark yields
anchor None. -/
def splitPath (path : List Char) : String × Option String :=
  if path.contains '#' then
    (unquote (String.mk (path.takeWhile (fun c => c ≠ '#'))),
     some (unquote (String.mk ((path.dropWhile (fun c => c ≠ '#')).drop 1))))
  else
    (unquote (String.mk path), none)

/-- split_title_and_anchor of fetch_talkpages.py: strip every
occurrence of the wiki base path, then split at the first hash mark
and percent-decode. -/
def split_title_and_anchor (url : String) : String × Option String :=
  splitPath (stripAll wikiPathChars url.data)

/-- One output record of fetch_talkpages.py (the fetched_at wall-clock
field is outside the model). -/
structure TalkRecord where
  title : String
  anchor : Option String
  url : String
  wikitext : String
  revision_timestamp : Option String
deriving DecidableEq

/-- Mutable state of the loop in main of fetch_talkpages.py: the
cached_pages dict, the sequence of titles for which a network
resolution was issued, and the records written so far. -/
structure FTState where
  cache : List (String × PageData)
  fetchLog : List String
  output : List TalkRecord
deriving DecidableEq

/-- Record construction in main of fetch_talkpages.py. -/
def mkTalkRecord (url title : String) (anchor : Option String) (pd : PageData) : TalkRecord :=
  ⟨title, anchor, url, pd.wikitext, pd.timestamp⟩

/-- One iteration of the loop in main of fetch_talkpages.py over an
input link.  resolve is the (deterministic, per-run) outcome of
fetch_wikitext_via_api for a title: None covers both a missing page
and transport exhaustion, exactly as in the code.  A cache hit emits a
record without fetching; a miss fetches, and on None skips the link
without caching; on success it caches and emits. -/
def processLink (resolve : String → Option PageData) (st : FTState) (url : String) : FTState :=
  let ta := split_title_and_anchor url
  match st.cache.lookup ta.1 with
  | some pd => { st with output := st.output ++ [mkTalkRecord url ta.1 ta.2 pd] }
  | none =>
    let st1 : FTState := { st with fetchLog := st.fetchLog ++ [ta.1] }
    match resolve ta.1 with
    | none => st1
    | some pd =>
      { st1 with
        cache := (ta.1, pd) :: st1.cache,
        output := st1.output ++ [mkTalkRecord url ta.1 ta.2 pd] }

/-- main of fetch_talkpages.py: fold the per-link step over the input
links, starting from an empty cache. -/
def fetchTalkpagesMain (resolve : String → Option PageData) (urls : List String) : FTState :=
  urls.foldl (processLink resolve) ⟨[], [], []⟩

/-! Model of scrape_drn.py. -/

/-- WIKI_BASE constant of scrape_drn.py. -/
def WIKI_BASE : String := "https://en.wikipedia.org"

/-- Model of str.startswith, stated on the underlying character lists
so that it evaluates inside the kernel. -/
def strStartsWith (s pre : String) : Bool := pre.data.isPrefixOf s.data

/-- extract_talk_links_from_html of scrape_drn.py: keep hrefs starting
with /wiki/Talk:, resolve each against WIKI_BASE (urljoin of the host
base with an absolute path is concatenation), collect them into a set
and return sorted(links). -/
def extract_talk_links_from_html (hrefs : List String) : List String :=
  sortedSet ((hrefs.filter (fun h => strStartsWith h "/wiki/Talk:")).map (fun h => WIKI_BASE ++ h))

/-- Title extraction in main of scrape_drn.py: strip WIKI_BASE, drop
the fragment, strip /wiki/, percent-decode. -/
def scrapeTitleOf (url : String) : String :=
  let path := stripAll WIKI_BASE.data url.data
  let path := path.takeWhile (fun c => c ≠ '#')
  unquote (String.mk (stripAll "/wiki/".data path))

/-- Outcome of one call to fetch_wikitext_via_api of scrape_drn.py
(which has no retry loop): an uncaught exception, or a parsed
response. -/
inductive ScrapeApiResult where
  | exn : ScrapeApiResult
  | resp : ApiResp → ScrapeApiResult
deriving DecidableEq

/-- One record written by main of scrape_drn.py (fetched_at is outside
the model). -/
structure DrnRecord where
  title : String
  url : String
  wikitext : String
  revision_timestamp : Option String
deriving DecidableEq

/-- Observable outcome of a completed run of main of scrape_drn.py:
the URLs passed to get_html, the limited link list written to the
links file, and the records written to the records file. -/
structure ScrapeOut where
  htmlFetches : List String
  links : List String
  records : List DrnRecord
deriving DecidableEq

/-- Seed page URL construction in main of scrape_drn.py:
WIKI_BASE + /wiki/ + page_name.replace(" ", "_"). -/
def pageUrlOf (page_name : String) : String :=
  WIKI_BASE ++ "/wiki/" ++ String.mk (page_name.data.map (fun c => if c = ' ' then '_' else c))

/-- Per-link body of the records loop in main of scrape_drn.py: the
API call is wrapped in try/except, so an exception skips the link; a
None result (missing page / no revisions) skips the link; otherwise
one record is written. -/
def scrapeRecordOf (api : String → ScrapeApiResult) (url : String) : Option DrnRecord :=
  let title := scrapeTitleOf url
  match api title with
  | ScrapeApiResult.exn => none
  | ScrapeApiResult.resp r =>
    (processResponse r).map (fun pd => DrnRecord.mk title url pd.wikitext pd.timestamp)

/-- main of scrape_drn.py: fetch the seed page with get_html (an
uncaught RuntimeError after 3 failed attempts aborts the run with a
nonzero exit, modelled as Except.error), extract and limit the talk
links, then write one record per link whose API resolution succeeds.
get_html is called exactly once, on the seed URL. -/
def scrapeDrnMain (net : String → Nat → Option (List String)) (api : String → ScrapeApiResult)
    (page_name : String) (limit : Nat) : Except Unit ScrapeOut :=
  let page_url := pageUrlOf page_name
  match (get_html (net page_url) 3).result with
  | none => Except.error ()
  | some hrefs =>
    let talk_links := (extract_talk_links_from_html hrefs).take limit
    Except.ok ⟨[page_url], talk_links, talk_links.filterMap (scrapeRecordOf api)⟩

/-- safe_filename of scrape_drn.py, first substitution: delete every
character that is not a word character, whitespace, or a hyphen.
Python's Unicode classes for word and space characters are modelled by
Lean's character predicates. -/
def keepFilenameChar (c : Char) : Bool :=
  c.isAlphanum || c = '_' || c.isWhitespace || c = '-'

/-- safe_filename of scrape_drn.py, second substitution: replace every
maximal whitespace run by a single underscore.  The flag records
whether the previous character was part of a whitespace run. -/
def collapseWsGo : Bool → List Char → List Char
  | _, [] => []
  | prevWs, c :: rest =>
    if c.isWhitespace then
      if prevWs then collapseWsGo true rest
      else '_' :: collapseWsGo true rest
    else c :: collapseWsGo false rest

/-- safe_filename of scrape_drn.py: keep word characters, whitespace
and hyphens; collapse whitespace runs to underscores; strip leading
and trailing underscores; truncate to 240 characters. -/
def safe_filename (s : String) : String :=
  let s1 := s.data.filter keepFilenameChar
  let s2 := collapseWsGo false s1
  let s3 := ((s2.dropWhile (fun c => c = '_')).reverse.dropWhile (fun c => c = '_')).reverse
  String.mk (s3.take 240)

/-- Modelled from the spec (section 4.2, deduplication clause): the
order-stable deduplication the spec ascribes to the extractor — each
distinct identifier once, at the position of its first occurrence.
Used only to compare the spec's wording against the code's sorted-set
behaviour. -/
def firstOccurrenceDedup (l : List String) : List String :=
  l.foldl (fun acc x => if x ∈ acc then acc else acc ++ [x]) []

/-! Derived notions used to state the claims. -/

/-- Strict lexicographic order on strings as a proposition. -/
def strLtP (a b : String) : Prop := strLt a b = true

/-- Soundness of the cached_pages dict of fetch_talkpages.py with
respect to the run's resolution outcomes: every cached binding agrees
with what resolution returns for that title. -/
def cacheSound (resolve : String → Option PageData) (st : FTState) : Prop :=
  ∀ t pd, st.cache.lookup t = some pd → resolve t = some pd

/-- The record main of fetch_talkpages.py owes one input link: one
record when its title resolves to a present page, none otherwise. -/
def linkRecord (resolve : String → Option PageData) (url : String) : Option TalkRecord :=
  let ta := split_title_and_anchor url
  (resolve ta.1).map (mkTalkRecord url ta.1 ta.2)

/-- Invariant tying the fetch log of fetch_talkpages.py to its cache
for one title that resolves to a present page: either the title was
never fetched and is uncached, or it was fetched exactly once and is
cached. -/
def fetchedOnceInv (t : String) (pd : PageData) (st : FTState) : Prop :=
  (st.fetchLog.count t = 0 ∧ st.cache.lookup t = none) ∨
  (st.fetchLog.count t ≤ 1 ∧ st.cache.lookup t = some pd)

/-! Concrete fixtures for counterexamples and witnesses. -/

/-- A deterministic two-document network: the seed noticeboard page
links to one archive page and one talk page, and the archive page (a
document the network would serve) links to a further talk page. -/
def seedNet : String → Nat → Option (List String) := fun u _ =>
  if u = "https://en.wikipedia.org/wiki/Wikipedia:Dispute_resolution_noticeboard" then
    some ["/wiki/Wikipedia:Dispute_resolution_noticeboard/Archive_1", "/wiki/Talk:X"]
  else if u = "https://en.wikipedia.org/wiki/Wikipedia:Dispute_resolution_noticeboard/Archive_1" then
    some ["/wiki/Talk:Z"]
  else none

/-- A content API where both Talk:X and Talk:Z are present pages. -/
def seedApi : String → ScrapeApiResult := fun t =>
  if t = "Talk:X" then ScrapeApiResult.resp ⟨[⟨false, [⟨"xtext", some "ts1"⟩]⟩]⟩
  else if t = "Talk:Z" then ScrapeApiResult.resp ⟨[⟨false, [⟨"ztext", some "ts2"⟩]⟩]⟩
  else ScrapeApiResult.exn

/-- The run of scrape_drn.py main on the fixture network. -/
def seedRun : Except Unit ScrapeOut :=
  scrapeDrnMain seedNet seedApi "Wikipedia:Dispute resolution noticeboard" 200

/-- An API response whose single page carries the missing marker. -/
def missingResp : ApiResp := ⟨[⟨true, []⟩]⟩

/-! Order lemmas for the lexicographic comparator. -/

lemma charListLt_irrefl : ∀ l : List Char, charListLt l l = false
  | [] => rfl
  | c :: rest => by
    simp [charListLt, lt_irrefl c, charListLt_irrefl rest]

lemma charListLt_trans (as : List Char) : ∀ bs cs : List Char,
    charListLt as bs = true → charListLt bs cs = true → charListLt as cs = true := by
  induction as with
  | nil =>
    intro bs cs h1 h2
    cases bs with
    | nil => exact h2
    | cons b bs =>
      cases cs with
      | nil => simp [charListLt] at h2
      | cons c cs => simp [charListLt]
  | cons a as ih =>
    intro bs cs h1 h2
    cases bs with
    | nil => simp [charListLt] at h1
    | cons b bs =>
      cases cs with
      | nil => simp [charListLt] at h2
      | cons c cs =>
        rcases lt_trichotomy a b with hab | hab | hab
        · rcases lt_trichotomy b c with hbc | hbc | hbc
          · simp [charListLt, lt_trans hab hbc]
          · subst hbc
            simp [charListLt, hab]
          · simp [charListLt, asymm hbc, hbc] at h2
        · subst hab
          simp only [charListLt, lt_irrefl, if_false] at h1
          rcases lt_trichotomy a c with hac | hac | hac
          · simp [charListLt, hac]
          · subst hac
            simp only [charListLt, lt_irrefl, if_false] at h2 ⊢
            exact ih bs cs h1 h2
          · simp [charListLt, asymm hac, hac] at h2
        · simp [charListLt, asymm hab, hab] at h1

lemma charListLt_eq_of_not_lt : ∀ as bs : List Char,
    charListLt as bs = false → charListLt bs as = false → as = bs
  | [], [], _, _ => rfl
  | [], _ :: _, h1, _ => by simp [charListLt] at h1
  | _ :: _, [], _, h2 => by simp [charListLt] at h2
  | a :: as, b :: bs, h1, h2 => by
    rcases lt_trichotomy a b with hab | hab | hab
    · simp [charListLt, hab] at h1
    · subst hab
      simp only [charListLt, lt_irrefl, if_false] at h1 h2
      rw [charListLt_eq_of_not_lt as bs h1 h2]
    · simp [charListLt, hab] at h2

lemma strLt_irrefl (s : String) : strLt s s = false :=
  charListLt_irrefl s.data

lemma strLt_trans {a b c : String} (h1 : strLt a b = true) (h2 : strLt b c = true) :
    strLt a c = true :=
  charListLt_trans a.data b.data c.data h1 h2

lemma strLt_total {a b : String} (h1 : strLt a b = false) (hne : a ≠ b) :
    strLt b a = true := by
  cases h2 : strLt b a with
  | true => rfl
  | false => exact absurd (String.ext (charListLt_eq_of_not_lt a.data b.data h1 h2)) hne

lemma strLtP_ne {a b : String} (h : strLtP a b) : a ≠ b := by
  intro he
  subst he
  exact absurd h (by simp [strLtP, strLt_irrefl])

lemma mem_insertSortedNoDup (x a : String) :
    ∀ l, a ∈ insertSortedNoDup x l ↔ a = x ∨ a ∈ l
  | [] => by simp [insertSortedNoDup]
  | y :: ys => by
    simp only [insertSortedNoDup]
    split_ifs with h1 h2
    · simp [List.mem_cons]
    · subst h2
      simp only [List.mem_cons]
      tauto
    · simp only [List.mem_cons, mem_insertSortedNoDup x a ys]
      tauto

lemma pairwise_insertSortedNoDup (x : String) :
    ∀ l, l.Pairwise strLtP → (insertSortedNoDup x l).Pairwise strLtP
  | [], _ => by simp [insertSortedNoDup, List.Pairwise]
  | y :: ys, h => by
    rw [List.pairwise_cons] at h
    simp only [insertSortedNoDup]
    split_ifs with h1 h2
    · rw [List.pairwise_cons]
      refine ⟨?_, List.pairwise_cons.mpr h⟩
      intro z hz
      rcases List.mem_cons.mp hz with hz | hz
      · subst hz
        exact h1
      · exact strLt_trans h1 (h.1 z hz)
    · exact List.pairwise_cons.mpr h
    · rw [List.pairwise_cons]
      refine ⟨?_, pairwise_insertSortedNoDup x ys h.2⟩
      intro z hz
      rcases (mem_insertSortedNoDup x z ys).mp hz with hz | hz
      · subst hz
        exact strLt_total (by simpa using h1) h2
      · exact h.1 z hz

lemma sortedSet_go (l : List String) : ∀ acc, acc.Pairwise strLtP →
    ((l.foldl (fun acc x => insertSortedNoDup x acc) acc).Pairwise strLtP ∧
     ∀ a, a ∈ l.foldl (fun acc x => insertSortedNoDup x acc) acc ↔ a ∈ acc ∨ a ∈ l) := by
  induction l with
  | nil => intro acc hacc; simpa using hacc
  | cons x xs ih =>
    intro acc hacc
    rw [List.foldl_cons]
    obtain ⟨hp, hm⟩ := ih (insertSortedNoDup x acc) (pairwise_insertSortedNoDup x acc hacc)
    refine ⟨hp, fun a => ?_⟩
    rw [hm a, mem_insertSortedNoDup]
    simp only [List.mem_cons]
    tauto

lemma sortedSet_pairwise (l : List String) : (sortedSet l).Pairwise strLtP :=
  (sortedSet_go l [] (by simp)).1

lemma mem_sortedSet (l : List String) (a : String) : a ∈ sortedSet l ↔ a ∈ l := by
  rw [sortedSet, (sortedSet_go l [] (by simp)).2 a]
  simp

lemma sortedSet_nodup (l : List String) : (sortedSet l).Nodup :=
  (sortedSet_pairwise l).imp (fun h => strLtP_ne h)

/-! Lemmas about stripAll and unquote. -/

lemma isPrefixOf_append_self : ∀ l r : List Char, l.isPrefixOf (l ++ r) = true
  | [], _ => by simp [List.isPrefixOf]
  | c :: cs, r => by
    simp only [List.cons_append, List.isPrefixOf, beq_self_eq_true, Bool.true_and]
    exact isPrefixOf_append_self cs r

lemma stripAllGo_congr (pat : List Char) : ∀ f1 f2 l, l.length ≤ f1 → l.length ≤ f2 →
    stripAllGo pat f1 l = stripAllGo pat f2 l := by
  intro f1
  induction f1 with
  | zero =>
    intro f2 l h1 h2
    have : l = [] := List.length_eq_zero.mp (Nat.le_zero.mp h1)
    subst this
    cases f2 <;> rfl
  | succ f ihf =>
    intro f2 l h1 h2
    cases l with
    | nil => cases f2 <;> rfl
    | cons c rest =>
      rw [List.length_cons] at h1 h2
      cases f2 with
      | zero => omega
      | succ g =>
        cases pat with
        | nil => rfl
        | cons p ps =>
          simp only [stripAllGo]
          by_cases hpre : (p :: ps).isPrefixOf (c :: rest) = true
          · rw [if_pos hpre, if_pos hpre]
            have hlen : (rest.drop ps.length).length ≤ rest.length := by
              rw [List.length_drop]
              omega
            exact ihf g _ (by omega) (by omega)
          · rw [if_neg hpre, if_neg hpre]
            rw [ihf g rest (by omega) (by omega)]

lemma stripAll_cons_ne (p c : Char) (ps r : List Char) (h : ¬ p = c) :
    stripAll (p :: ps) (c :: r) = c :: stripAll (p :: ps) r := by
  show stripAllGo (p :: ps) (c :: r).length (c :: r) = _
  rw [List.length_cons]
  simp only [stripAllGo]
  have hpre : (p :: ps).isPrefixOf (c :: r) = false := by
    simp [List.isPrefixOf, h]
  rw [hpre]
  simp only [Bool.false_eq_true, if_false]
  rfl

lemma stripAll_append_self (p : Char) (ps r : List Char) :
    stripAll (p :: ps) ((p :: ps) ++ r) = stripAll (p :: ps) r := by
  show stripAllGo (p :: ps) ((p :: (ps ++ r)).length) (p :: (ps ++ r)) = _
  rw [List.length_cons]
  simp only [stripAllGo]
  have hcond : (p :: ps).isPrefixOf (p :: (ps ++ r)) = true :=
    isPrefixOf_append_self (p :: ps) r
  rw [hcond]
  simp only [if_true]
  rw [List.drop_left]
  exact stripAllGo_congr _ _ _ _ (by simp [List.length_append]) (le_refl _)

lemma unquoteChars_cons_ne (c : Char) (l : List Char) (hc : ¬ c = '%') :
    unquoteChars (c :: l) = c :: unquoteChars l := by
  match l with
  | [] => rfl
  | [d] => rfl
  | a :: b :: rest => simp [unquoteChars, hc]

lemma unquote_cons_ne_empty (c : Char) (l : List Char) (hc : ¬ c = '%') :
    unquote (String.mk (c :: l)) ≠ "" := by
  intro hcontra
  rw [String.ext_iff] at hcontra
  rw [unquote] at hcontra
  simp only [unquoteChars_cons_ne c l hc] at hcontra
  simp at hcontra

lemma stripAll_wikiPath_talk (s : List Char) :
    stripAll wikiPathChars ('T' :: 'a' :: 'l' :: 'k' :: ':' :: s) =
      'T' :: 'a' :: 'l' :: 'k' :: ':' :: stripAll wikiPathChars s := by
  have hw : wikiPathChars = 'h' :: "ttps://en.wikipedia.org/wiki/".data := rfl
  rw [hw]
  rw [stripAll_cons_ne _ _ _ _ (by decide), stripAll_cons_ne _ _ _ _ (by decide),
      stripAll_cons_ne _ _ _ _ (by decide), stripAll_cons_ne _ _ _ _ (by decide),
      stripAll_cons_ne _ _ _ _ (by decide)]

/-! Lemmas about the retry loops. -/

lemma fwtaGo_allErr (attempt : Nat → Attempt) (h : ∀ n, attempt n = Attempt.err) :
    ∀ fuel i, fwtaGo attempt i fuel =
      ⟨none, fuel, (List.range' (i + 1) fuel).map (fun k => 2 * k)⟩ := by
  intro fuel
  induction fuel with
  | zero => intro i; rfl
  | succ f ihf =>
    intro i
    simp only [fwtaGo, h i, ihf (i + 1), List.range'_succ, List.map_cons]

lemma getHtmlGo_allNone (attempt : Nat → Option (List String)) (h : ∀ n, attempt n = none) :
    ∀ fuel i, getHtmlGo attempt i fuel =
      ⟨none, fuel, (List.range' (i + 1) fuel).map (fun k => 2 * k)⟩ := by
  intro fuel
  induction fuel with
  | zero => intro i; rfl
  | succ f ihf =>
    intro i
    simp only [getHtmlGo, h i, ihf (i + 1), List.range'_succ, List.map_cons]

lemma getHtmlGo_result_none_iff (attempt : Nat → Option (List String)) :
    ∀ fuel i, (getHtmlGo attempt i fuel).result = none ↔
      ∀ n, i ≤ n → n < i + fuel → attempt n = none := by
  intro fuel
  induction fuel with
  | zero =>
    intro i
    constructor
    · intro _ n h1 h2
      omega
    · intro _
      rfl
  | succ f ihf =>
    intro i
    cases hatt : attempt i with
    | some d =>
      simp only [getHtmlGo, hatt]
      constructor
      · intro hcontra
        exact absurd hcontra (by simp)
      · intro hall
        exact absurd (hall i (le_refl i) (by omega)) (by simp [hatt])
    | none =>
      simp only [getHtmlGo, hatt]
      rw [ihf (i + 1)]
      constructor
      · intro hall n h1 h2
        rcases Nat.eq_or_lt_of_le h1 with he | hlt
        · subst he
          exact hatt
        · exact hall n hlt (by omega)
      · intro hall n h1 h2
        exact hall n (by omega) (by omega)

/-! Lemmas about the fetch_talkpages.py main loop. -/

lemma cacheSound_empty (resolve : String → Option PageData) :
    cacheSound resolve ⟨[], [], []⟩ := by
  intro t pd h
  simp [List.lookup] at h

lemma lookup_cons_cache (t k : String) (pd : PageData) (c : List (String × PageData)) :
    List.lookup t ((k, pd) :: c) = if t = k then some pd else List.lookup t c := by
  by_cases h : t = k
  · subst h
    simp [List.lookup]
  · simp [List.lookup, h, beq_false_of_ne h]

lemma processLink_cacheSound (resolve : String → Option PageData) (st : FTState) (u : String)
    (hst : cacheSound resolve st) : cacheSound resolve (processLink resolve st u) := by
  unfold processLink
  rcases hcl : st.cache.lookup (split_title_and_anchor u).1 with _ | pd
  · rcases hres : resolve (split_title_and_anchor u).1 with _ | pd
    · simp only [hcl, hres]
      exact hst
    · simp only [hcl, hres]
      intro t q hlq
      rw [lookup_cons_cache] at hlq
      by_cases ht : t = (split_title_and_anchor u).1
      · rw [if_pos ht] at hlq
        cases hlq
        rw [ht]
        exact hres
      · rw [if_neg ht] at hlq
        exact hst t q hlq
  · simp only [hcl]
    exact hst

lemma ftFold_output (resolve : String → Option PageData) :
    ∀ (urls : List String) (st : FTState), cacheSound resolve st →
      (urls.foldl (processLink resolve) st).output =
        st.output ++ urls.filterMap (linkRecord resolve) := by
  intro urls
  induction urls with
  | nil =>
    intro st _
    simp
  | cons u us ih =>
    intro st hst
    rw [List.foldl_cons, List.filterMap_cons]
    rw [ih (processLink resolve st u) (processLink_cacheSound resolve st u hst)]
    unfold processLink linkRecord
    rcases hcl : st.cache.lookup (split_title_and_anchor u).1 with _ | pd
    · rcases hres : resolve (split_title_and_anchor u).1 with _ | pd
      · simp [hcl, hres]
      · simp [hcl, hres, List.append_assoc]
    · have hres : resolve (split_title_and_anchor u).1 = some pd :=
        hst _ pd hcl
      simp [hcl, hres, List.append_assoc]

lemma count_append_singleton (t u : String) (l : List String) :
    (l ++ [u]).count t = l.count t + if u = t then 1 else 0 := by
  rw [List.count_append]
  by_cases h : u = t
  · simp [List.count_cons, h]
  · simp [List.count_cons, h, beq_false_of_ne h]

lemma processLink_fetchedOnce (resolve : String → Option PageData) (t : String) (pd : PageData)
    (h : resolve t = some pd) (st : FTState) (u : String)
    (_hst : cacheSound resolve st) (hinv : fetchedOnceInv t pd st) :
    fetchedOnceInv t pd (processLink resolve st u) := by
  unfold processLink
  rcases hcl : st.cache.lookup (split_title_and_anchor u).1 with _ | pd2
  · rcases hres : resolve (split_title_and_anchor u).1 with _ | pd2
    · simp only [hcl, hres]
      by_cases ht : (split_title_and_anchor u).1 = t
      · rw [ht, h] at hres
        cases hres
      · rcases hinv with ⟨hc, hl⟩ | ⟨hc, hl⟩
        · exact Or.inl ⟨by rw [count_append_singleton, hc, if_neg ht], hl⟩
        · refine Or.inr ⟨?_, hl⟩
          rw [count_append_singleton, if_neg ht]
          omega
    · simp only [hcl, hres]
      by_cases ht : (split_title_and_anchor u).1 = t
      · rcases hinv with ⟨hc, hl⟩ | ⟨hc, hl⟩
        · refine Or.inr ⟨?_, ?_⟩
          · rw [count_append_singleton, hc, if_pos ht]
          · rw [lookup_cons_cache, if_pos ht.symm]
            rw [ht, h] at hres
            cases hres
            rfl
        · rw [ht] at hcl
          rw [hcl] at hl
          cases hl
      · rcases hinv with ⟨hc, hl⟩ | ⟨hc, hl⟩
        · refine Or.inl ⟨by rw [count_append_singleton, hc, if_neg ht], ?_⟩
          rw [lookup_cons_cache, if_neg (fun he => ht he.symm)]
          exact hl
        · refine Or.inr ⟨?_, ?_⟩
          · rw [count_append_singleton, if_neg ht]
            omega
          · rw [lookup_cons_cache, if_neg (fun he => ht he.symm)]
            exact hl
  · simp only [hcl]
    exact hinv

lemma ftFold_fetchedOnce (resolve : String → Option PageData) (t : String) (pd : PageData)
    (h : resolve t = some pd) :
    ∀ (urls : List String) (st : FTState), cacheSound resolve st → fetchedOnceInv t pd st →
      fetchedOnceInv t pd (urls.foldl (processLink resolve) st) := by
  intro urls
  induction urls with
  | nil =>
    intro st _ hinv
    exact hinv
  | cons u us ih =>
    intro st hst hinv
    rw [List.foldl_cons]
    exact ih (processLink resolve st u) (processLink_cacheSound resolve st u hst)
      (processLink_fetchedOnce resolve t pd h st u hst hinv)

/-! Remaining helper lemmas. -/

lemma stripAll_wikiPath_self (l : List Char) :
    stripAll wikiPathChars (wikiPathChars ++ l) = stripAll wikiPathChars l := by
  have hw : wikiPathChars = 'h' :: "ttps://en.wikipedia.org/wiki/".data := rfl
  rw [hw]
  exact stripAll_append_self _ _ l

lemma get_html_result_none_iff (attempt : Nat → Option (List String)) (retries : Nat) :
    (get_html attempt retries).result = none ↔ ∀ n, n < retries → attempt n = none := by
  rw [get_html, getHtmlGo_result_none_iff]
  constructor
  · intro hall n hn
    exact hall n (Nat.zero_le n) (by omega)
  · intro hall n _ h2
    exact hall n (by omega)

lemma scrapeRecordOf_url (api : String → ScrapeApiResult) (u : String) (r : DrnRecord)
    (h : scrapeRecordOf api u = some r) : r.url = u := by
  unfold scrapeRecordOf at h
  rcases hapi : api (scrapeTitleOf u) with _ | resp
  · simp [hapi] at h
  · simp only [hapi] at h
    rcases hpr : processResponse resp with _ | pd
    · simp [hpr] at h
    · rw [hpr] at h
      simp only [Option.map] at h
      cases h
      rfl

lemma splitPath_title_cons (c : Char) (l : List Char) (hc1 : ¬ c = '#') (hc2 : ¬ c = '%') :
    (splitPath (c :: l)).1 ≠ "" := by
  unfold splitPath
  split_ifs with h
  · show unquote (String.mk (List.takeWhile (fun c => c ≠ '#') (c :: l))) ≠ ""
    rw [List.takeWhile_cons, if_pos (by simp [hc1])]
    exact unquote_cons_ne_empty c _ hc2
  · exact unquote_cons_ne_empty c _ hc2

lemma collapseWsGo_mem : ∀ (l : List Char) (b : Bool) (c : Char), c ∈ collapseWsGo b l →
    c = '_' ∨ (c ∈ l ∧ c.isWhitespace = false)
  | [], b, c, hc => absurd hc (List.not_mem_nil c)
  | d :: rest, b, c, hc => by
    rw [collapseWsGo] at hc
    by_cases hd : d.isWhitespace
    · rw [if_pos hd] at hc
      cases b with
      | true =>
        rw [if_pos rfl] at hc
        rcases collapseWsGo_mem rest true c hc with h | ⟨h1, h2⟩
        · exact Or.inl h
        · exact Or.inr ⟨List.mem_cons_of_mem d h1, h2⟩
      | false =>
        rw [if_neg (by simp)] at hc
        rcases List.mem_cons.mp hc with h | h
        · exact Or.inl h
        · rcases collapseWsGo_mem rest true c h with h | ⟨h1, h2⟩
          · exact Or.inl h
          · exact Or.inr ⟨List.mem_cons_of_mem d h1, h2⟩
    · rw [if_neg hd] at hc
      rcases List.mem_cons.mp hc with h | h
      · subst h
        exact Or.inr ⟨List.mem_cons_self c rest, by simpa using hd⟩
      · rcases collapseWsGo_mem rest false c h with h | ⟨h1, h2⟩
        · exact Or.inl h
        · exact Or.inr ⟨List.mem_cons_of_mem d h1, h2⟩

/-! Claim theorems. -/

/-- C1 (counterexample): the claim that resolving an identifier twice
issues at most one network call fails when the first resolution yields
an absent page — fetch_talkpages.py does not cache absent results, so
two links to the same absent title issue two resolution fetches. -/
theorem c1_counterexample :
    ¬ ((fetchTalkpagesMain (fun _ => none)
        ["https://en.wikipedia.org/wiki/Talk:X",
         "https://en.wikipedia.org/wiki/Talk:X"]).fetchLog.count "Talk:X" ≤ 1) := by
  decide

/-- C1 (amended): for every identifier whose resolution yields a
present page, resolving it any number of times within one run of
fetch_talkpages.py main issues at most one network call, and every
emitted record for that identifier carries the one cached text and
revision timestamp; absent results are not cached, so only present
resolutions enjoy this guarantee. -/
theorem resolver_caches_present_results (resolve : String → Option PageData)
    (t : String) (pd : PageData) (urls : List String) (h : resolve t = some pd) :
    (fetchTalkpagesMain resolve urls).fetchLog.count t ≤ 1 ∧
    ∀ r ∈ (fetchTalkpagesMain resolve urls).output, r.title = t →
      r.wikitext = pd.wikitext ∧ r.revision_timestamp = pd.timestamp := by
  constructor
  · have hinv := ftFold_fetchedOnce resolve t pd h urls ⟨[], [], []⟩
      (cacheSound_empty resolve) (Or.inl ⟨by simp, rfl⟩)
    rcases hinv with ⟨hc, _⟩ | ⟨hc, _⟩
    · rw [fetchTalkpagesMain]
      omega
    · exact hc
  · intro r hr hrt
    rw [fetchTalkpagesMain,
      ftFold_output resolve urls ⟨[], [], []⟩ (cacheSound_empty resolve)] at hr
    rw [List.nil_append, List.mem_filterMap] at hr
    obtain ⟨u, _, hu⟩ := hr
    unfold linkRecord at hu
    rcases hres : resolve (split_title_and_anchor u).1 with _ | pd2
    · simp [hres] at hu
    · simp only [hres, Option.map] at hu
      cases hu
      have ht : (split_title_and_anchor u).1 = t := hrt
      rw [ht, h] at hres
      cases hres
      exact ⟨rfl, rfl⟩

/-- C1 (witness): a concrete present resolution, two links to the same
title: the hypothesis holds and the guarantee follows. -/
theorem resolver_caches_present_results_witness :
    ((fun s => if s = "Talk:X" then some (⟨"foo", none⟩ : PageData) else none) "Talk:X" =
        some (⟨"foo", none⟩ : PageData)) ∧
    ((fetchTalkpagesMain (fun s => if s = "Talk:X" then some ⟨"foo", none⟩ else none)
        ["https://en.wikipedia.org/wiki/Talk:X",
         "https://en.wikipedia.org/wiki/Talk:X#Sec"]).fetchLog.count "Talk:X" ≤ 1 ∧
     ∀ r ∈ (fetchTalkpagesMain (fun s => if s = "Talk:X" then some ⟨"foo", none⟩ else none)
        ["https://en.wikipedia.org/wiki/Talk:X",
         "https://en.wikipedia.org/wiki/Talk:X#Sec"]).output, r.title = "Talk:X" →
      r.wikitext = (⟨"foo", none⟩ : PageData).wikitext ∧
      r.revision_timestamp = (⟨"foo", none⟩ : PageData).timestamp) :=
  ⟨by decide, resolver_caches_present_results _ "Talk:X" ⟨"foo", none⟩ _ (by decide)⟩

/-- C2 (counterexample): on a network whose seed document links to an
archive page (which itself links to Talk:Z) and to Talk:X, the run of
scrape_drn.py main fetches only the seed URL, emits only the Talk:X
record, and nothing tagged with or derived from the archive: main has
no archive-page extraction pass, contradicting the claim that the
archive's document is fetched and its references emitted with the
archive identifier as sourceContext. -/
theorem c2_counterexample :
    (scrapeDrnMain seedNet seedApi "Wikipedia:Dispute resolution noticeboard" 200).toOption =
      some ⟨["https://en.wikipedia.org/wiki/Wikipedia:Dispute_resolution_noticeboard"],
            ["https://en.wikipedia.org/wiki/Talk:X"],
            [⟨"Talk:X", "https://en.wikipedia.org/wiki/Talk:X", "xtext", some "ts1"⟩]⟩ := by
  decide

/-- C2 (amended): the discovery stage of scrape_drn.py runs a single
extraction pass (the talk-page pattern) over the seed document only:
every completed run issues exactly one document fetch — the seed — and
its links and records all derive from that one extraction; no
archive-page pass, archive fetch, or sourceContext tagging exists. -/
theorem discovery_single_pass_seed_only (net : String → Nat → Option (List String))
    (api : String → ScrapeApiResult) (page_name : String) (limit : Nat) (out : ScrapeOut)
    (hrun : scrapeDrnMain net api page_name limit = Except.ok out) :
    out.htmlFetches = [pageUrlOf page_name] ∧
    ∃ hrefs, (get_html (net (pageUrlOf page_name)) 3).result = some hrefs ∧
      out.links = (extract_talk_links_from_html hrefs).take limit ∧
      out.records = out.links.filterMap (scrapeRecordOf api) := by
  unfold scrapeDrnMain at hrun
  rcases hres : (get_html (net (pageUrlOf page_name)) 3).result with _ | hrefs
  · simp only [hres] at hrun
    exact Except.noConfusion hrun
  · simp only [hres] at hrun
    cases hrun
    exact ⟨rfl, hrefs, rfl, rfl, rfl⟩

/-- C2 (witness): the amended statement holds on the concrete fixture
run. -/
theorem discovery_single_pass_seed_only_witness :
    (scrapeDrnMain seedNet seedApi "Wikipedia:Dispute resolution noticeboard" 200 =
      Except.ok ⟨["https://en.wikipedia.org/wiki/Wikipedia:Dispute_resolution_noticeboard"],
                 ["https://en.wikipedia.org/wiki/Talk:X"],
                 [⟨"Talk:X", "https://en.wikipedia.org/wiki/Talk:X", "xtext", some "ts1"⟩]⟩) ∧
    (⟨["https://en.wikipedia.org/wiki/Wikipedia:Dispute_resolution_noticeboard"],
      ["https://en.wikipedia.org/wiki/Talk:X"],
      [⟨"Talk:X", "https://en.wikipedia.org/wiki/Talk:X", "xtext", some "ts1"⟩]⟩ :
        ScrapeOut).htmlFetches =
      [pageUrlOf "Wikipedia:Dispute resolution noticeboard"] :=
  ⟨rfl, (discovery_single_pass_seed_only seedNet seedApi
    "Wikipedia:Dispute resolution noticeboard" 200 _ rfl).1⟩

/-- C3: in fetch_talkpages.py main, every input link whose title
resolves to a present page yields exactly one output record (one per
link, in input order, sharing the single cached resolution), and every
link whose title resolves absent or with transport exhaustion (both
reported as None by the resolver) yields no record; the loop is total,
so no such failure aborts the run. -/
theorem join_completeness (resolve : String → Option PageData) (urls : List String) :
    (fetchTalkpagesMain resolve urls).output = urls.filterMap (linkRecord resolve) := by
  rw [fetchTalkpagesMain,
    ftFold_output resolve urls ⟨[], [], []⟩ (cacheSound_empty resolve), List.nil_append]

/-- C4 (counterexample): fetch_wikitext_via_api of fetch_talkpages.py
returns None both when every attempt fails and when the provider
reports the page missing, so transport exhaustion is not reported as
an error value distinct from the page-absent outcome. -/
theorem c4_counterexample :
    (fetch_wikitext_via_api (fun _ => Attempt.err) 3).result = none ∧
    (fetch_wikitext_via_api (fun _ => Attempt.ok missingResp) 3).result = none := by
  decide

/-- C4 (amended): when every retry attempt fails, the resolver returns
None — the very same value it returns for a page the provider reports
missing; a caller cannot distinguish transport exhaustion from page
absence. -/
theorem transport_exhaustion_returns_none (attempt : Nat → Attempt) (retries : Nat)
    (h : ∀ n, attempt n = Attempt.err) :
    (fetch_wikitext_via_api attempt retries).result = none ∧
    (fetch_wikitext_via_api (fun _ => Attempt.ok missingResp) retries).result = none := by
  constructor
  · rw [fetch_wikitext_via_api, fwtaGo_allErr attempt h retries 0]
  · cases retries with
    | zero => rfl
    | succ n => rfl

/-- C4 (witness): the amended statement at an everywhere-failing
attempt oracle with two attempts. -/
theorem transport_exhaustion_returns_none_witness :
    (fetch_wikitext_via_api (fun _ => Attempt.err) 2).result = none ∧
    (fetch_wikitext_via_api (fun _ => Attempt.ok missingResp) 2).result = none :=
  transport_exhaustion_returns_none (fun _ => Attempt.err) 2 (fun _ => rfl)

/-- C5 (counterexample): extract_talk_links_from_html returns the
distinct resolved identifiers in sorted order, not in link-order of
first occurrence: on a document whose links are Talk:B then Talk:A the
code returns A before B, while first-occurrence order is B before
A. -/
theorem c5_counterexample :
    extract_talk_links_from_html ["/wiki/Talk:B", "/wiki/Talk:A"] =
      ["https://en.wikipedia.org/wiki/Talk:A", "https://en.wikipedia.org/wiki/Talk:B"] ∧
    firstOccurrenceDedup ((["/wiki/Talk:B", "/wiki/Talk:A"].filter
        (fun h => strStartsWith h "/wiki/Talk:")).map (fun h => WIKI_BASE ++ h)) =
      ["https://en.wikipedia.org/wiki/Talk:B", "https://en.wikipedia.org/wiki/Talk:A"] ∧
    extract_talk_links_from_html ["/wiki/Talk:B", "/wiki/Talk:A"] ≠
      firstOccurrenceDedup ((["/wiki/Talk:B", "/wiki/Talk:A"].filter
        (fun h => strStartsWith h "/wiki/Talk:")).map (fun h => WIKI_BASE ++ h)) := by
  refine ⟨by decide, by decide, by decide⟩

/-- C5 (amended): for every document, extract_talk_links_from_html
returns each distinct resolved target identifier exactly once — the
result is duplicate-free and contains exactly the resolved identifiers
of the matching links — but ordered lexicographically (Python
sorted()), not by first occurrence. -/
theorem extractor_unique_sorted (hrefs : List String) :
    (extract_talk_links_from_html hrefs).Nodup ∧
    (extract_talk_links_from_html hrefs).Pairwise strLtP ∧
    ∀ x, x ∈ extract_talk_links_from_html hrefs ↔
      x ∈ (hrefs.filter (fun h => strStartsWith h "/wiki/Talk:")).map
        (fun h => WIKI_BASE ++ h) :=
  ⟨sortedSet_nodup _, sortedSet_pairwise _, fun x => mem_sortedSet _ x⟩

/-- C6: a fetch whose every attempt fails issues exactly retries
underlying requests (default 3) in both retrying fetchers, sleeping
2 × attemptNumber between consecutive attempts — linear backoff,
strictly increasing from one attempt to the next (the loop also sleeps
once more after the final failed attempt, which the claim does not
mention and which does not affect it). -/
theorem retry_bound_linear_backoff (retries : Nat) (attemptA : Nat → Attempt)
    (attemptH : Nat → Option (List String)) (hA : ∀ n, attemptA n = Attempt.err)
    (hH : ∀ n, attemptH n = none) :
    (fetch_wikitext_via_api attemptA retries).calls = retries ∧
    (get_html attemptH retries).calls = retries ∧
    (fetch_wikitext_via_api attemptA retries).sleeps =
      (List.range' 1 retries).map (fun k => 2 * k) ∧
    (get_html attemptH retries).sleeps = (List.range' 1 retries).map (fun k => 2 * k) ∧
    ∀ i : Nat, ∀ hi : i + 1 < (fetch_wikitext_via_api attemptA retries).sleeps.length,
      (fetch_wikitext_via_api attemptA retries).sleeps.get ⟨i, by omega⟩ <
        (fetch_wikitext_via_api attemptA retries).sleeps.get ⟨i + 1, hi⟩ := by
  rw [fetch_wikitext_via_api, get_html, fwtaGo_allErr attemptA hA retries 0,
    getHtmlGo_allNone attemptH hH retries 0]
  refine ⟨rfl, rfl, rfl, rfl, ?_⟩
  intro i hi
  simp only [List.length_map, List.length_range'] at hi
  simp only [List.get_eq_getElem, List.getElem_map,
    List.getElem_range' _ (by simpa using Nat.lt_of_succ_lt hi),
    List.getElem_range' _ (by simpa using hi)]
  omega

/-- C6 (witness): three failing attempts make exactly three requests
with sleeps 2, 4, 6. -/
theorem retry_bound_linear_backoff_witness :
    (fetch_wikitext_via_api (fun _ => Attempt.err) 3).calls = 3 ∧
    (get_html (fun _ => none) 3).calls = 3 ∧
    (fetch_wikitext_via_api (fun _ => Attempt.err) 3).sleeps = [2, 4, 6] := by
  have h := retry_bound_linear_backoff 3 (fun _ => Attempt.err) (fun _ => none)
    (fun _ => rfl) (fun _ => rfl)
  exact ⟨h.1, h.2.1, by rw [h.2.2.1]; decide⟩

/-- C7: a run of scrape_drn.py main aborts with a nonzero outcome
exactly when all three attempts to fetch the seed document fail; the
per-title API oracle — including one that raises on every title — does
not appear in this condition, so no single talk-page failure ever
aborts the run. -/
theorem only_seed_failure_aborts (net : String → Nat → Option (List String))
    (api : String → ScrapeApiResult) (page_name : String) (limit : Nat) :
    scrapeDrnMain net api page_name limit = Except.error () ↔
      ∀ n, n < 3 → net (pageUrlOf page_name) n = none := by
  unfold scrapeDrnMain
  rcases hres : (get_html (net (pageUrlOf page_name)) 3).result with _ | hrefs
  · simp only [hres]
    constructor
    · intro _
      exact (get_html_result_none_iff (net (pageUrlOf page_name)) 3).mp hres
    · intro _
      trivial
  · simp only [hres]
    constructor
    · intro hcontra
      exact Except.noConfusion hcontra
    · intro hall
      have hno : (get_html (net (pageUrlOf page_name)) 3).result = none :=
        (get_html_result_none_iff _ 3).mpr hall
      rw [hres] at hno
      cases hno

/-- C8 (counterexample): a discovered link whose URL ends in a bare
hash mark yields an anchor that is present but empty, contradicting
the claim that a present anchor is always non-empty. -/
theorem c8_counterexample :
    strStartsWith "/wiki/Talk:X#" "/wiki/Talk:" = true ∧
    WIKI_BASE ++ "/wiki/Talk:X#" = "https://en.wikipedia.org/wiki/Talk:X#" ∧
    (split_title_and_anchor "https://en.wikipedia.org/wiki/Talk:X#").2 = some "" := by
  refine ⟨by decide, by decide, by decide⟩

/-- C8 (amended): for every discovered reference link — a URL starting
with the wiki base path followed by Talk: — the title produced by
split_title_and_anchor is never empty; the anchor, however, may be
present yet empty, since the code performs no emptiness check on it. -/
theorem discovered_title_nonempty (url : String)
    (h : strStartsWith url "https://en.wikipedia.org/wiki/Talk:" = true) :
    (split_title_and_anchor url).1 ≠ "" := by
  have hpre : ("https://en.wikipedia.org/wiki/Talk:").data <+: url.data :=
    List.isPrefixOf_iff_prefix.mp h
  obtain ⟨s, hs⟩ := hpre
  have hdata : url.data = wikiPathChars ++ ('T' :: 'a' :: 'l' :: 'k' :: ':' :: s) := by
    rw [← hs]
    rfl
  unfold split_title_and_anchor
  rw [hdata, stripAll_wikiPath_self, stripAll_wikiPath_talk]
  exact splitPath_title_cons 'T' _ (by decide) (by decide)

/-- C8 (witness): a concrete discovered link has a non-empty title. -/
theorem discovered_title_nonempty_witness :
    strStartsWith "https://en.wikipedia.org/wiki/Talk:X"
        "https://en.wikipedia.org/wiki/Talk:" = true ∧
    (split_title_and_anchor "https://en.wikipedia.org/wiki/Talk:X").1 ≠ "" :=
  ⟨by decide, discovered_title_nonempty _ (by decide)⟩

/-- C9: with a limit of n, a completed run of scrape_drn.py main
writes at most the first n extracted links (a prefix of the
extractor's output of length at most n), and every written record
stems from one of those links; links beyond the first n are simply
absent from the output. -/
theorem limit_truncates_links (net : String → Nat → Option (List String))
    (api : String → ScrapeApiResult) (page_name : String) (limit : Nat) (out : ScrapeOut)
    (hrefs : List String)
    (hseed : (get_html (net (pageUrlOf page_name)) 3).result = some hrefs)
    (hrun : scrapeDrnMain net api page_name limit = Except.ok out) :
    out.links.length ≤ limit ∧ out.links <+: extract_talk_links_from_html hrefs ∧
    ∀ r ∈ out.records, r.url ∈ out.links := by
  unfold scrapeDrnMain at hrun
  simp only [hseed] at hrun
  cases hrun
  refine ⟨?_, ?_, ?_⟩
  · simp [List.length_take]
  · exact ⟨(extract_talk_links_from_html hrefs).drop limit, List.take_append_drop limit _⟩
  · intro r hr
    rw [List.mem_filterMap] at hr
    obtain ⟨u, hu, hru⟩ := hr
    rwa [scrapeRecordOf_url api u r hru]

/-- C9 (witness): the limit behaviour on the concrete fixture run with
limit 1. -/
theorem limit_truncates_links_witness :
    ((get_html (seedNet (pageUrlOf "Wikipedia:Dispute resolution noticeboard")) 3).result =
      some ["/wiki/Wikipedia:Dispute_resolution_noticeboard/Archive_1", "/wiki/Talk:X"]) ∧
    (scrapeDrnMain seedNet seedApi "Wikipedia:Dispute resolution noticeboard" 1 =
      Except.ok ⟨["https://en.wikipedia.org/wiki/Wikipedia:Dispute_resolution_noticeboard"],
                 ["https://en.wikipedia.org/wiki/Talk:X"],
                 [⟨"Talk:X", "https://en.wikipedia.org/wiki/Talk:X", "xtext", some "ts1"⟩]⟩) ∧
    (⟨["https://en.wikipedia.org/wiki/Wikipedia:Dispute_resolution_noticeboard"],
      ["https://en.wikipedia.org/wiki/Talk:X"],
      [⟨"Talk:X", "https://en.wikipedia.org/wiki/Talk:X", "xtext", some "ts1"⟩]⟩ :
        ScrapeOut).links.length ≤ 1 :=
  ⟨rfl, rfl, (limit_truncates_links seedNet seedApi
    "Wikipedia:Dispute resolution noticeboard" 1 _ _ rfl rfl).1⟩

/-- C10: for every input string, safe_filename returns a string of at
most 240 characters consisting only of letters, digits, underscores
and hyphens — in particular no spaces, no slashes and no
backslashes. -/
theorem safe_filename_charset_and_length (s : String) :
    (safe_filename s).length ≤ 240 ∧
    ∀ c ∈ (safe_filename s).data,
      (c.isAlphanum || c = '_' || c = '-') = true ∧ c ≠ ' ' ∧ c ≠ '/' ∧ c ≠ '\\' := by
  constructor
  · show (List.take 240 _).length ≤ 240
    rw [List.length_take]
    omega
  · intro c hc
    have hc3 : c ∈ (((collapseWsGo false (s.data.filter keepFilenameChar)).dropWhile
        (fun c => c = '_')).reverse.dropWhile (fun c => c = '_')).reverse :=
      List.take_subset 240 _ hc
    rw [List.mem_reverse] at hc3
    have hc4 := (List.dropWhile_sublist (fun c => c = '_')).subset hc3
    rw [List.mem_reverse] at hc4
    have hc5 := (List.dropWhile_sublist (fun c => c = '_')).subset hc4
    have hmain : (c.isAlphanum || c = '_' || c = '-') = true := by
      rcases collapseWsGo_mem _ false c hc5 with h | ⟨h1, h2⟩
      · subst h
        decide
      · rw [List.mem_filter] at h1
        have hk := h1.2
        unfold keepFilenameChar at hk
        rw [h2, Bool.or_false] at hk
        exact hk
    refine ⟨hmain, ?_, ?_, ?_⟩
    · intro he
      rw [he] at hmain
      exact absurd hmain (by decide)
    · intro he
      rw [he] at hmain
      exact absurd hmain (by decide)
    · intro he
      rw [he] at hmain
      exact absurd hmain (by decide)

end WikiEscalation
